import Mathlib

/-!
Verification of the cascading guild-data purge of the TicketsBot database
repository.  The repository contains two versions of the Go function
PurgeGuildData (getting a transaction, issuing DELETE statements, committing):

* an earlier version (src/unnamed/part_002) that first deletes from fourteen
  linked child tables via subquery joins (iterating a Go map, whose iteration
  order is unspecified) and then from fifty-three tables with a direct
  guild_id column;
* a later version (src/guildpurge.go) that only issues direct guild_id
  deletes over fifty tables, relying on ON DELETE CASCADE constraints.

We embed the store as a multiset-of-rows-per-table (a function from table
name to list of rows, a row being a partial assignment of columns to
numeric values), embed each DELETE statement by its filtering semantics,
and embed the transactional control flow (begin / per-statement error /
commit / deferred rollback) with an explicit fault-injection record.
-/

/-- Errors as produced by the Go code: either a base store error, or an
error produced by a format-and-wrap step (the message part of
fmt.Errorf("...: %w", cause)). -/
inductive GoErr where
  | base (msg : String)
  | wrap (msg : String) (cause : GoErr)
deriving DecidableEq

/-- Whether an error value contains (is or wraps, transitively) another
error value; models what errors.Is / unwrapping can ever recover. -/
def GoErr.mentions : GoErr → GoErr → Bool
  | .base m, x => GoErr.base m == x
  | .wrap m c, x => GoErr.wrap m c == x || c.mentions x

/-- A row is a partial assignment of column names to values.  Values are
modelled as naturals (ids and guild ids are unsigned integers in the
schema). -/
abbrev Row := List (String × Nat)

/-- Value of a column in a row, if present. -/
def colVal (r : Row) (c : String) : Option Nat :=
  match r.find? (fun p => p.1 == c) with
  | some p => some p.2
  | none => none

/-- A store maps each table name to its current list of rows. -/
abbrev Store := String → List Row

/-- Replace the contents of one table. -/
def setTable (db : Store) (t : String) (rows : List Row) : Store :=
  fun u => if u = t then rows else db u

/-- One entry of the linkedTables map of the earlier PurgeGuildData:
table -> (column, parent_table, parent_column, parent_guild_column). -/
structure LinkedSpec where
  table : String
  column : String
  parentTable : String
  parentColumn : String
  parentGuildColumn : String
deriving DecidableEq

/-- A delete statement issued by PurgeGuildData: either a direct
guild_id-scoped delete or a linked (subquery-join) delete. -/
inductive Stmt where
  | direct (table : String)
  | linked (s : LinkedSpec)
deriving DecidableEq

/-- The table a statement deletes from. -/
def Stmt.table : Stmt → String
  | .direct t => t
  | .linked s => s.table

/-- The SQL text the Go code builds with fmt.Sprintf for each statement. -/
def Stmt.sql : Stmt → String
  | .direct t => "DELETE FROM " ++ t ++ " WHERE guild_id = $1"
  | .linked s =>
      "DELETE FROM " ++ s.table ++ " WHERE " ++ s.column ++ " IN (SELECT "
        ++ s.parentColumn ++ " FROM " ++ s.parentTable ++ " WHERE "
        ++ s.parentGuildColumn ++ " = $1)"

/-- Does a row match the WHERE clause of a direct delete
(guild_id = $1)?  A row without the column does not match. -/
def directMatch (tenant : Nat) (r : Row) : Bool :=
  colVal r "guild_id" == some tenant

/-- The keys produced by the subquery
SELECT parentColumn FROM parentTable WHERE parentGuildColumn = $1,
evaluated against a store. -/
def selectedKeys (s : LinkedSpec) (tenant : Nat) (db : Store) : List Nat :=
  (db s.parentTable).filterMap fun p =>
    if colVal p s.parentGuildColumn == some tenant then colVal p s.parentColumn else none

/-- Does a row match the WHERE clause of a linked delete
(column IN subquery)?  A row with no value in the column matches nothing. -/
def linkedMatch (s : LinkedSpec) (tenant : Nat) (db : Store) (r : Row) : Bool :=
  match colVal r s.column with
  | some v => (selectedKeys s tenant db).contains v
  | none => false

/-- WHERE-clause semantics of an arbitrary statement against the current
transaction state. -/
def stmtMatch (tenant : Nat) (db : Store) : Stmt → Row → Bool
  | .direct _, r => directMatch tenant r
  | .linked s, r => linkedMatch s tenant db r

/-- Execute one delete statement against the transaction state: remove the
matching rows of the target table and report the rows-affected count. -/
def execStmt (tenant : Nat) (db : Store) (st : Stmt) : Store × Nat :=
  ((setTable db st.table ((db st.table).filter (fun r => !stmtMatch tenant db st r))),
    (db st.table).countP (stmtMatch tenant db st))

/-- Fault injection for one call: an error when opening the transaction,
per-table statement errors, a commit error and a rollback error. -/
structure Faults where
  beginErr : Option GoErr
  stmtErr : String → Option GoErr
  commitErr : Option GoErr
  rollbackErr : Option GoErr

/-- The fault record of a run in which the store raises no errors. -/
def noFaults : Faults :=
  { beginErr := none, stmtErr := fun _ => none, commitErr := none, rollbackErr := none }

/-- State threaded through the statement loop: the transaction-local store,
the executed statements with their rows-affected counts (in execution
order), and the logger events (the Go code logs a (table, rows_deleted)
event only when rows_deleted > 0). -/
structure RunState where
  txStore : Store
  trace : List (Stmt × Nat)
  logs : List (String × Nat)

/-- The statement loop of PurgeGuildData: execute statements in order,
stopping at the first one whose table has an injected error, and
accumulating the trace and log events. -/
def runStmts (f : Faults) (tenant : Nat) : List Stmt → RunState → Option (String × GoErr) × RunState
  | [], st => (none, st)
  | s :: rest, st =>
    match f.stmtErr s.table with
    | some e => (some (s.table, e), st)
    | none =>
      let p := execStmt tenant st.txStore s
      runStmts f tenant rest
        { txStore := p.1
          trace := st.trace ++ [(s, p.2)]
          logs := if p.2 > 0 then st.logs ++ [(s.table, p.2)] else st.logs }

/-- Everything a caller can observe of one PurgeGuildData call: the store
visible after the call (the transaction commits or is rolled back as a
unit; the deferred rollback makes an aborted transaction invisible), the
returned Go error (or nil), the executed statements with counts, and the
logger events. -/
structure Outcome where
  store : Store
  result : Except GoErr Unit
  trace : List (Stmt × Nat)
  logs : List (String × Nat)

/-- The transactional control flow shared by both versions of
PurgeGuildData, parameterised by the statement list.  Mirrors the Go code:
begin (wrapping a begin error), the statement loop (wrapping the first
statement error with the failing table name and returning immediately),
commit (wrapping a commit error).  The deferred tx.Rollback return value is
ignored by the Go code, so f.rollbackErr is read nowhere. -/
def purgeWith (stmts : List Stmt) (f : Faults) (tenant : Nat) (db : Store) : Outcome :=
  match f.beginErr with
  | some e =>
      { store := db, result := .error (.wrap "failed to begin transaction" e),
        trace := [], logs := [] }
  | none =>
    match runStmts f tenant stmts { txStore := db, trace := [], logs := [] } with
    | (some te, st) =>
        { store := db,
          result := .error (.wrap ("failed to delete from " ++ te.1) te.2),
          trace := st.trace, logs := st.logs }
    | (none, st) =>
      match f.commitErr with
      | some e =>
          { store := db, result := .error (.wrap "failed to commit transaction" e),
            trace := st.trace, logs := st.logs }
      | none =>
          { store := st.txStore, result := .ok (), trace := st.trace, logs := st.logs }

/-- The linkedTables map of the earlier PurgeGuildData, listed in the order
of the Go source text.  Being a Go map, its iteration order at run time is
an arbitrary permutation of these entries. -/
def oldLinkedSpecs : List LinkedSpec :=
  [ ⟨"multi_panel_targets", "multi_panel_id", "multi_panels", "id", "guild_id"⟩,
    ⟨"panel_access_control_rules", "panel_id", "panels", "panel_id", "guild_id"⟩,
    ⟨"panel_here_mention", "panel_id", "panels", "panel_id", "guild_id"⟩,
    ⟨"panel_role_mentions", "panel_id", "panels", "panel_id", "guild_id"⟩,
    ⟨"panel_support_hours", "panel_id", "panels", "panel_id", "guild_id"⟩,
    ⟨"panel_teams", "panel_id", "panels", "panel_id", "guild_id"⟩,
    ⟨"panel_user_mention", "panel_id", "panels", "panel_id", "guild_id"⟩,
    ⟨"support_team_members", "team_id", "support_team", "id", "guild_id"⟩,
    ⟨"support_team_roles", "team_id", "support_team", "id", "guild_id"⟩,
    ⟨"embed_fields", "embed_id", "embeds", "id", "guild_id"⟩,
    ⟨"form_input_api_headers", "input_id", "form_input", "id", "guild_id"⟩,
    ⟨"form_input_api_config", "input_id", "form_input", "id", "guild_id"⟩,
    ⟨"form_input_options", "input_id", "form_input", "id", "guild_id"⟩,
    ⟨"form_input", "form_id", "forms", "form_id", "guild_id"⟩ ]

/-- The directGuildIdTables list of the earlier PurgeGuildData
(src/unnamed/part_002), in source order. -/
def oldDirectTables : List String :=
  [ "archive_messages", "auto_close_exclude", "category_update_queue",
    "close_reason", "close_request", "exit_survey_responses",
    "first_response_time", "participants", "service_ratings", "ticket_claims",
    "ticket_last_message", "ticket_members", "tickets",
    "guild_ticket_counters", "panels", "multi_panels", "support_team",
    "forms", "embeds", "custom_integration_secret_values",
    "custom_integration_guilds", "active_language", "archive_channel",
    "auto_close", "blacklist", "channel_category", "claim_settings",
    "close_confirmation", "custom_colours", "feedback_enabled",
    "guild_leave_time", "guild_metadata", "import_logs", "import_mapping",
    "legacy_premium_entitlement_guilds", "naming_scheme", "on_call",
    "permissions", "premium_guilds", "role_blacklist", "role_permissions",
    "server_blacklist", "settings", "staff_override", "tag", "ticket_limit",
    "ticket_permissions", "used_keys", "user_can_close", "user_guilds",
    "webhooks", "welcome_messages", "whitelabel_guilds" ]

/-- The directGuildIdTables list of the later PurgeGuildData
(src/guildpurge.go), in source order. -/
def newDirectTables : List String :=
  [ "archive_messages", "auto_close_exclude", "category_update_queue",
    "close_reason", "close_request", "exit_survey_responses",
    "first_response_time", "participant", "service_ratings", "ticket_claims",
    "ticket_last_message", "ticket_members", "tickets",
    "guild_ticket_counters", "panels", "multi_panels", "support_team",
    "forms", "embeds", "custom_integration_secret_values",
    "custom_integration_guilds", "active_language", "archive_channel",
    "auto_close", "blacklist", "channel_category", "claim_settings",
    "close_confirmation", "custom_colours", "feedback_enabled",
    "guild_metadata", "import_logs", "import_mapping",
    "legacy_premium_entitlement_guilds", "naming_scheme", "on_call",
    "permissions", "premium_guilds", "role_blacklist", "role_permissions",
    "settings", "staff_override", "tags", "ticket_limit",
    "ticket_permissions", "users_can_close", "user_guilds", "webhooks",
    "welcome_messages", "whitelabel_guilds" ]

/-- Statement list of the earlier PurgeGuildData given the iteration order
of the linkedTables map: all linked deletes, then all direct deletes. -/
def oldStmts (order : List LinkedSpec) : List Stmt :=
  order.map Stmt.linked ++ oldDirectTables.map Stmt.direct

/-- The earlier PurgeGuildData (src/unnamed/part_002), parameterised by
the map iteration order. -/
def purgeOld (order : List LinkedSpec) (f : Faults) (tenant : Nat) (db : Store) : Outcome :=
  purgeWith (oldStmts order) f tenant db

/-- The later PurgeGuildData (src/guildpurge.go). -/
def purgeNew (f : Faults) (tenant : Nat) (db : Store) : Outcome :=
  purgeWith (newDirectTables.map Stmt.direct) f tenant db

/-- Fault-free transaction state transformer: fold the statements over the
store. -/
def runPure (tenant : Nat) (stmts : List Stmt) (db : Store) : Store :=
  stmts.foldl (fun d s => (execStmt tenant d s).1) db

/-- The trace a fault-free run produces from a given transaction state. -/
def pureTrace (tenant : Nat) : List Stmt → Store → List (Stmt × Nat)
  | [], _ => []
  | s :: rest, db => (s, (execStmt tenant db s).2) :: pureTrace tenant rest (execStmt tenant db s).1

/-- Logger events derived from a trace: one (table, count) event per
statement whose rows-affected count is positive. -/
def logsOf (tr : List (Stmt × Nat)) : List (String × Nat) :=
  tr.filterMap fun p => if p.2 > 0 then some (p.1.table, p.2) else none

theorem logsOf_append (a b : List (Stmt × Nat)) :
    logsOf (a ++ b) = logsOf a ++ logsOf b := by
  simp [logsOf, List.filterMap_append]

/-- Unfolding step of the fault-free fold. -/
theorem runPure_cons (tenant : Nat) (s : Stmt) (rest : List Stmt) (db : Store) :
    runPure tenant (s :: rest) db = runPure tenant rest ((execStmt tenant db s).1) := rfl

theorem runStmts_ok (f : Faults) (tenant : Nat) (stmts : List Stmt) (st : RunState)
    (h : ∀ s ∈ stmts, f.stmtErr s.table = none) :
    runStmts f tenant stmts st =
      (none,
        { txStore := runPure tenant stmts st.txStore,
          trace := st.trace ++ pureTrace tenant stmts st.txStore,
          logs := st.logs ++ logsOf (pureTrace tenant stmts st.txStore) }) := by
  induction stmts generalizing st with
  | nil => simp [runStmts, runPure, pureTrace, logsOf]
  | cons s rest ih =>
    have hs : f.stmtErr s.table = none := h s (by simp)
    have hrest : ∀ u ∈ rest, f.stmtErr u.table = none := fun u hu => h u (by simp [hu])
    simp only [runStmts, hs]
    rw [ih _ hrest]
    by_cases hp : (execStmt tenant st.txStore s).2 > 0 <;>
      simp [hp, runPure_cons, pureTrace, logsOf, List.filterMap_cons, List.append_assoc]

theorem runStmts_fail (f : Faults) (tenant : Nat) (pre post : List Stmt) (s : Stmt)
    (e : GoErr) (st : RunState)
    (hpre : ∀ u ∈ pre, f.stmtErr u.table = none)
    (hs : f.stmtErr s.table = some e) :
    runStmts f tenant (pre ++ s :: post) st =
      (some (s.table, e),
        { txStore := runPure tenant pre st.txStore,
          trace := st.trace ++ pureTrace tenant pre st.txStore,
          logs := st.logs ++ logsOf (pureTrace tenant pre st.txStore) }) := by
  induction pre generalizing st with
  | nil => simp [runStmts, hs, runPure, pureTrace, logsOf]
  | cons u rest ih =>
    have hu : f.stmtErr u.table = none := hpre u (by simp)
    have hrest : ∀ v ∈ rest, f.stmtErr v.table = none := fun v hv => hpre v (by simp [hv])
    have hstep : runStmts f tenant ((u :: rest) ++ s :: post) st =
        runStmts f tenant (rest ++ s :: post)
          { txStore := (execStmt tenant st.txStore u).1
            trace := st.trace ++ [(u, (execStmt tenant st.txStore u).2)]
            logs := if (execStmt tenant st.txStore u).2 > 0 then
                st.logs ++ [(u.table, (execStmt tenant st.txStore u).2)] else st.logs } := by
      simp only [List.cons_append, runStmts, hu, List.append_eq]
    rw [hstep, ih _ hrest]
    by_cases hp : (execStmt tenant st.txStore u).2 > 0 <;>
      simp [hp, runPure_cons, pureTrace, logsOf, List.filterMap_cons, List.append_assoc]

/-- A statement only changes its own table. -/
theorem execStmt_other (tenant : Nat) (db : Store) (s : Stmt) (tbl : String)
    (h : tbl ≠ s.table) : (execStmt tenant db s).1 tbl = db tbl := by
  simp [execStmt, setTable, h]

/-- Tables never named by the statements are untouched. -/
theorem runPure_notMem (tenant : Nat) (stmts : List Stmt) (db : Store) (tbl : String)
    (h : tbl ∉ stmts.map Stmt.table) : runPure tenant stmts db tbl = db tbl := by
  induction stmts generalizing db with
  | nil => rfl
  | cons s rest ih =>
    simp only [List.map_cons, List.mem_cons, not_or] at h
    rw [runPure_cons, ih _ h.2, execStmt_other tenant db s tbl h.1]

/-- Each table of the result is a sublist of the corresponding table of
the input store: deletes only remove rows. -/
theorem runPure_sublist (tenant : Nat) (stmts : List Stmt) (db : Store) (tbl : String) :
    (runPure tenant stmts db tbl).Sublist (db tbl) := by
  induction stmts generalizing db with
  | nil => exact List.Sublist.refl _
  | cons s rest ih =>
    rw [runPure_cons]
    refine (ih ((execStmt tenant db s).1)).trans ?_
    by_cases h : tbl = s.table
    · subst h
      simp only [execStmt, setTable, if_pos rfl]
      exact List.filter_sublist _
    · rw [execStmt_other tenant db s tbl h]

/-- The subquery key set only shrinks as the store shrinks. -/
theorem selectedKeys_mono (s : LinkedSpec) (tenant : Nat) (d db : Store)
    (h : ∀ tbl, (d tbl).Sublist (db tbl)) (v : Nat)
    (hv : v ∈ selectedKeys s tenant d) : v ∈ selectedKeys s tenant db := by
  have hsub : (selectedKeys s tenant d).Sublist (selectedKeys s tenant db) :=
    List.Sublist.filterMap _ (h s.parentTable)
  exact hsub.subset hv

/-- The executed statements of a fault-free trace are exactly the statement
list, in order. -/
theorem pureTrace_map_fst (tenant : Nat) (stmts : List Stmt) (db : Store) :
    (pureTrace tenant stmts db).map Prod.fst = stmts := by
  induction stmts generalizing db with
  | nil => rfl
  | cons s rest ih => simp [pureTrace, ih]

/-- A run with no begin, statement or commit fault commits: the visible
store is the folded transaction state, the result is nil, and the trace
and logs are the fault-free ones. -/
theorem purgeWith_ok (stmts : List Stmt) (f : Faults) (tenant : Nat) (db : Store)
    (hbegin : f.beginErr = none)
    (hstmts : ∀ u ∈ stmts, f.stmtErr u.table = none)
    (hcommit : f.commitErr = none) :
    purgeWith stmts f tenant db =
      { store := runPure tenant stmts db, result := .ok (),
        trace := pureTrace tenant stmts db,
        logs := logsOf (pureTrace tenant stmts db) } := by
  simp only [purgeWith, hbegin]
  rw [runStmts_ok f tenant stmts _ hstmts]
  simp [hcommit]

/-- A run whose first faulty statement is s (after the fault-free prefix
pre) aborts: the visible store is the original one (the deferred rollback
fires), the result wraps the store error with the failing table name, and
only the prefix was executed. -/
theorem purgeWith_fail (stmts pre post : List Stmt) (s : Stmt) (e : GoErr)
    (f : Faults) (tenant : Nat) (db : Store)
    (hsplit : stmts = pre ++ s :: post)
    (hpre : ∀ u ∈ pre, f.stmtErr u.table = none)
    (hs : f.stmtErr s.table = some e)
    (hbegin : f.beginErr = none) :
    purgeWith stmts f tenant db =
      { store := db,
        result := .error (.wrap ("failed to delete from " ++ s.table) e),
        trace := pureTrace tenant pre db,
        logs := logsOf (pureTrace tenant pre db) } := by
  subst hsplit
  simp only [purgeWith, hbegin]
  rw [runStmts_fail f tenant pre post s e _ hpre hs]
  simp

/-- A run in which every statement succeeds but commit fails: the visible
store is the original one, and the result wraps the commit error with the
commit-failure message. -/
theorem purgeWith_commitFail (stmts : List Stmt) (e : GoErr) (f : Faults)
    (tenant : Nat) (db : Store)
    (hbegin : f.beginErr = none)
    (hstmts : ∀ u ∈ stmts, f.stmtErr u.table = none)
    (hcommit : f.commitErr = some e) :
    purgeWith stmts f tenant db =
      { store := db,
        result := .error (.wrap "failed to commit transaction" e),
        trace := pureTrace tenant stmts db,
        logs := logsOf (pureTrace tenant stmts db) } := by
  simp only [purgeWith, hbegin]
  rw [runStmts_ok f tenant stmts _ hstmts]
  simp [hcommit]

/-- If some statement of the list has an injected fault, the list splits at
the first faulty statement. -/
theorem firstFail_split (f : Faults) (stmts : List Stmt)
    (h : ∃ s ∈ stmts, f.stmtErr s.table ≠ none) :
    ∃ pre s post e, stmts = pre ++ s :: post ∧
      (∀ u ∈ pre, f.stmtErr u.table = none) ∧ f.stmtErr s.table = some e := by
  induction stmts with
  | nil => simp at h
  | cons a rest ih =>
    cases ha : f.stmtErr a.table with
    | some e => exact ⟨[], a, rest, e, rfl, by simp, ha⟩
    | none =>
      have hrest : ∃ s ∈ rest, f.stmtErr s.table ≠ none := by
        obtain ⟨s, hmem, hne⟩ := h
        rcases List.mem_cons.mp hmem with heq | hmem2
        · exact absurd (heq ▸ ha) hne
        · exact ⟨s, hmem2, hne⟩
      obtain ⟨pre, s, post, e, hsplit, hpre, hs⟩ := ih hrest
      refine ⟨a :: pre, s, post, e, by simp [hsplit], ?_, hs⟩
      intro u hu
      rcases List.mem_cons.mp hu with heq | hmem2
      · exact heq ▸ ha
      · exact hpre u hmem2

/-- Fault record that fails the delete statement on the tickets table. -/
def failTickets : Faults :=
  { beginErr := none,
    stmtErr := fun t => if t = "tickets" then some (.base "store error") else none,
    commitErr := none, rollbackErr := none }

/-- A store holding one tickets row for guild 42. -/
def dbOneTicket : Store :=
  fun t => if t = "tickets" then [[("guild_id", 42), ("id", 1)]] else []

/-- C1: for every tenant, if any delete statement issued during the purge
fails, the call returns an error and the visible store is exactly the
pre-purge store: the transaction is rolled back as a unit, so rows deleted
by earlier statements of the same call are restored and no table is
partially purged. -/
theorem purgeOld_statement_failure_atomic
    (order : List LinkedSpec) (f : Faults) (tenant : Nat) (db : Store)
    (hperm : order.Perm oldLinkedSpecs)
    (hbegin : f.beginErr = none)
    (hfail : ∃ s ∈ oldStmts order, f.stmtErr s.table ≠ none) :
    (∃ e, (purgeOld order f tenant db).result = Except.error e) ∧
      (purgeOld order f tenant db).store = db := by
  obtain ⟨pre, s, post, e, hsplit, hpre, hs⟩ := firstFail_split f _ hfail
  rw [purgeOld, purgeWith_fail _ pre post s e f tenant db hsplit hpre hs hbegin]
  exact ⟨⟨_, rfl⟩, rfl⟩

theorem purgeOld_statement_failure_atomic_witness :
    (∃ e, (purgeOld oldLinkedSpecs failTickets 42 dbOneTicket).result = Except.error e) ∧
      (purgeOld oldLinkedSpecs failTickets 42 dbOneTicket).store = dbOneTicket :=
  purgeOld_statement_failure_atomic oldLinkedSpecs failTickets 42 dbOneTicket
    (List.Perm.refl _) rfl
    ⟨Stmt.direct "tickets", by decide, by decide⟩

/-- C4: the purge aborts at the first failing statement: the statements
executed are exactly those strictly before the failing one (no delete for
any later table runs), and the returned error wraps the underlying store
error in a message naming the failing table. -/
theorem purgeOld_abort_at_first_failure
    (order : List LinkedSpec) (f : Faults) (tenant : Nat) (db : Store)
    (pre post : List Stmt) (s : Stmt) (e : GoErr)
    (hperm : order.Perm oldLinkedSpecs)
    (hbegin : f.beginErr = none)
    (hsplit : oldStmts order = pre ++ s :: post)
    (hpre : ∀ u ∈ pre, f.stmtErr u.table = none)
    (hs : f.stmtErr s.table = some e) :
    (purgeOld order f tenant db).result =
      Except.error (GoErr.wrap ("failed to delete from " ++ s.table) e) ∧
    (purgeOld order f tenant db).trace.map Prod.fst = pre := by
  rw [purgeOld, purgeWith_fail _ pre post s e f tenant db hsplit hpre hs hbegin]
  exact ⟨rfl, pureTrace_map_fst _ _ _⟩

theorem purgeOld_abort_at_first_failure_witness :
    (purgeOld oldLinkedSpecs failTickets 42 dbOneTicket).result =
      Except.error (GoErr.wrap ("failed to delete from " ++ "tickets") (GoErr.base "store error")) ∧
    (purgeOld oldLinkedSpecs failTickets 42 dbOneTicket).trace.map Prod.fst =
      oldLinkedSpecs.map Stmt.linked ++ ((oldDirectTables.take 12).map Stmt.direct) :=
  purgeOld_abort_at_first_failure oldLinkedSpecs failTickets 42 dbOneTicket
    (oldLinkedSpecs.map Stmt.linked ++ ((oldDirectTables.take 12).map Stmt.direct))
    ((oldDirectTables.drop 13).map Stmt.direct)
    (Stmt.direct "tickets") (GoErr.base "store error")
    (List.Perm.refl _) rfl (by decide) (by decide) (by decide)

/-- The statements of the linked phase strictly before position i, for a
given map iteration order. -/
def linkedPhasePrefix (order : List LinkedSpec) (i : Nat) : List Stmt :=
  (order.take i).map Stmt.linked

/-- The invariant asserted by the specification for the linked phase: at
the moment the i-th linked delete runs, the rows of its parent table are
still exactly the pre-purge rows. -/
def parentsIntact (order : List LinkedSpec) (tenant : Nat) (db : Store) : Prop :=
  ∀ i, (h : i < order.length) →
    runPure tenant (linkedPhasePrefix order i) db ((order.get ⟨i, h⟩).parentTable) =
      db ((order.get ⟨i, h⟩).parentTable)

/-- A legal iteration order of the linkedTables map in which the
form_input entry is visited first. -/
def orderFormInputFirst : List LinkedSpec :=
  ⟨"form_input", "form_id", "forms", "form_id", "guild_id"⟩ :: oldLinkedSpecs.take 13

/-- Guild 7 owns one form, one form input belonging to that form, and one
form input option belonging to that input. -/
def dbForms : Store := fun t =>
  if t = "forms" then [[("form_id", 1), ("guild_id", 7)]]
  else if t = "form_input" then [[("id", 2), ("form_id", 1), ("guild_id", 7)]]
  else if t = "form_input_options" then [[("input_id", 2)]]
  else []

/-- C2 counterexample: the linkedTables map of the earlier PurgeGuildData
is iterated in unspecified order, and form_input is both a linked table
and the parent of form_input_options.  Under the (legal) iteration order
that visits form_input first, by the time the form_input_options delete
runs its parent rows in form_input have already been deleted by this same
purge, refuting the claim for that invocation. -/
theorem purgeOld_parents_intact_counterexample :
    orderFormInputFirst.Perm oldLinkedSpecs ∧
      ¬ parentsIntact orderFormInputFirst 7 dbForms ∧
      selectedKeys ⟨"form_input_options", "input_id", "form_input", "id", "guild_id"⟩ 7
        dbForms = [2] ∧
      selectedKeys ⟨"form_input_options", "input_id", "form_input", "id", "guild_id"⟩ 7
        (runPure 7 (linkedPhasePrefix orderFormInputFirst 13) dbForms) = [] := by
  refine ⟨by decide, ?_, by decide, by decide⟩
  intro h
  exact absurd (h 13 (by decide)) (by decide)

/-- C2 amended: in every invocation of the earlier PurgeGuildData (any
iteration order of the linkedTables map), all linked-table deletes are
executed before any direct-table delete; and for each linked-table delete
whose parent table is not itself one of the linked tables, the parent rows
its join subquery selects from are still the pre-purge rows when it runs.
(When the parent is itself a linked table — form_input, parent of
form_input_options, form_input_api_config and form_input_api_headers —
the parent rows may already have been deleted, depending on the map
iteration order.) -/
theorem purgeOld_linked_before_direct_parents_intact
    (order : List LinkedSpec) (tenant : Nat) (db : Store)
    (hperm : order.Perm oldLinkedSpecs) :
    ((purgeOld order noFaults tenant db).trace.map Prod.fst =
      order.map Stmt.linked ++ oldDirectTables.map Stmt.direct) ∧
    ∀ i, (h : i < order.length) →
      (order.get ⟨i, h⟩).parentTable ∉ order.map LinkedSpec.table →
      runPure tenant (linkedPhasePrefix order i) db ((order.get ⟨i, h⟩).parentTable) =
        db ((order.get ⟨i, h⟩).parentTable) := by
  constructor
  · rw [purgeOld, purgeWith_ok _ _ _ _ rfl (fun _ _ => rfl) rfl]
    exact pureTrace_map_fst _ _ _
  · intro i h hnot
    apply runPure_notMem
    intro hmem
    apply hnot
    have hmap : (linkedPhasePrefix order i).map Stmt.table =
        (order.take i).map LinkedSpec.table := by
      simp [linkedPhasePrefix, List.map_map]
      rfl
    rw [hmap] at hmem
    exact List.map_subset LinkedSpec.table (List.take_subset i order) hmem

theorem purgeOld_linked_before_direct_parents_intact_witness :
    ((purgeOld oldLinkedSpecs noFaults 7 dbForms).trace.map Prod.fst =
      oldLinkedSpecs.map Stmt.linked ++ oldDirectTables.map Stmt.direct) ∧
    runPure 7 (linkedPhasePrefix oldLinkedSpecs 0) dbForms
        ((oldLinkedSpecs.get ⟨0, by decide⟩).parentTable) =
      dbForms ((oldLinkedSpecs.get ⟨0, by decide⟩).parentTable) :=
  ⟨(purgeOld_linked_before_direct_parents_intact oldLinkedSpecs 7 dbForms (List.Perm.refl _)).1,
   (purgeOld_linked_before_direct_parents_intact oldLinkedSpecs 7 dbForms (List.Perm.refl _)).2
     0 (by decide) (by decide)⟩

/-- C3 counterexample: on a fully successful run the later PurgeGuildData
returns only a nil error — the caller-visible per-table report is the log
stream, and it omits every table whose delete removed zero rows, so it is
not the full ordered per-table sequence (and no total is reported at all).
With one tickets row for guild 42, only one of the fifty executed
statements is reported. -/
theorem purgeNew_success_report_counterexample :
    (purgeNew noFaults 42 dbOneTicket).result = Except.ok () ∧
      (purgeNew noFaults 42 dbOneTicket).logs = [("tickets", 1)] ∧
      (purgeNew noFaults 42 dbOneTicket).logs ≠
        (purgeNew noFaults 42 dbOneTicket).trace.map (fun p => (p.1.table, p.2)) := by
  refine ⟨by rfl, by decide, ?_⟩
  decide

/-- Every logged event carries a positive rows-deleted count. -/
theorem logsOf_pos (tr : List (Stmt × Nat)) :
    (logsOf tr).all (fun p => decide (0 < p.2)) = true := by
  simp only [logsOf, List.all_eq_true]
  intro p hp
  obtain ⟨q, _, hq⟩ := List.mem_filterMap.mp hp
  by_cases h : q.2 > 0
  · simp only [if_pos h] at hq
    cases hq
    simpa using h
  · simp [if_neg h] at hq

/-- C3 amended: when every statement and the commit succeed, the later
PurgeGuildData returns a nil error (a success flag only, not a PurgeResult
value); the per-table (table, rowsDeleted) pairs reach the caller through
the logger, in execution order, but only for tables whose delete removed
at least one row, and no totalRowsDeleted aggregate is produced. -/
theorem purgeNew_success_report
    (tenant : Nat) (db : Store) :
    (purgeNew noFaults tenant db).result = Except.ok () ∧
    (purgeNew noFaults tenant db).trace.map Prod.fst = newDirectTables.map Stmt.direct ∧
    (purgeNew noFaults tenant db).logs = logsOf ((purgeNew noFaults tenant db).trace) ∧
    ((purgeNew noFaults tenant db).logs.all (fun p => decide (0 < p.2))) = true := by
  rw [purgeNew, purgeWith_ok _ _ _ _ rfl (fun _ _ => rfl) rfl]
  exact ⟨rfl, pureTrace_map_fst _ _ _, rfl, logsOf_pos _⟩

/-- The trace the linked phase of the earlier PurgeGuildData must produce:
for each LinkedSpec, in iteration order, one statement deleting from its
table exactly the rows whose link column lies in the subquery key set of
the current transaction state, recording the rows-affected count. -/
def linkedTrace : List LinkedSpec → Nat → Store → List (Stmt × Nat)
  | [], _, _ => []
  | s :: rest, tenant, db =>
      (Stmt.linked s, (db s.table).countP (linkedMatch s tenant db)) ::
        linkedTrace rest tenant ((execStmt tenant db (Stmt.linked s)).1)

theorem pureTrace_append (tenant : Nat) (a b : List Stmt) (db : Store) :
    pureTrace tenant (a ++ b) db =
      pureTrace tenant a db ++ pureTrace tenant b (runPure tenant a db) := by
  induction a generalizing db with
  | nil => simp [pureTrace, runPure]
  | cons s rest ih => simp [pureTrace, ih, runPure_cons]

theorem pureTrace_length (tenant : Nat) (stmts : List Stmt) (db : Store) :
    (pureTrace tenant stmts db).length = stmts.length := by
  induction stmts generalizing db with
  | nil => rfl
  | cons s rest ih => simp [pureTrace, ih]

/-- The WHERE-clause function of a linked statement, pointwise. -/
theorem stmtMatch_linked (tenant : Nat) (db : Store) (s : LinkedSpec) :
    stmtMatch tenant db (Stmt.linked s) = linkedMatch s tenant db := by
  funext r
  rfl

/-- The WHERE-clause function of a direct statement, pointwise. -/
theorem stmtMatch_direct (tenant : Nat) (db : Store) (t : String) :
    stmtMatch tenant db (Stmt.direct t) = directMatch tenant := by
  funext r
  rfl

theorem pureTrace_linked (order : List LinkedSpec) (tenant : Nat) (db : Store) :
    pureTrace tenant (order.map Stmt.linked) db = linkedTrace order tenant db := by
  induction order generalizing db with
  | nil => rfl
  | cons s rest ih =>
    simp only [List.map_cons, pureTrace, linkedTrace, execStmt, stmtMatch_linked, Stmt.table, ih]

/-- C5: for each LinkedSpec, taken in the map iteration order, the earlier
PurgeGuildData executes exactly the statement
DELETE FROM table WHERE column IN
  (SELECT parentColumn FROM parentTable WHERE parentGuildColumn = $1),
recording its rows-affected count: the first |order| entries of the
execution trace are precisely the linked statements with their counts. -/
theorem purgeOld_linked_statement_shape
    (order : List LinkedSpec) (tenant : Nat) (db : Store)
    (hperm : order.Perm oldLinkedSpecs) :
    (purgeOld order noFaults tenant db).trace.take order.length =
      linkedTrace order tenant db ∧
    ∀ s ∈ order, (Stmt.linked s).sql =
      "DELETE FROM " ++ s.table ++ " WHERE " ++ s.column ++ " IN (SELECT " ++
        s.parentColumn ++ " FROM " ++ s.parentTable ++ " WHERE " ++
        s.parentGuildColumn ++ " = $1)" := by
  constructor
  · rw [purgeOld, purgeWith_ok _ _ _ _ rfl (fun _ _ => rfl) rfl]
    simp only [oldStmts, pureTrace_append]
    rw [← pureTrace_linked order tenant db]
    have hlen : order.length = (pureTrace tenant (order.map Stmt.linked) db).length := by
      rw [pureTrace_length, List.length_map]
    rw [hlen, List.take_left]
  · intro s _
    rfl

theorem purgeOld_linked_statement_shape_witness :
    (purgeOld oldLinkedSpecs noFaults 7 dbForms).trace.take oldLinkedSpecs.length =
      linkedTrace oldLinkedSpecs 7 dbForms :=
  (purgeOld_linked_statement_shape oldLinkedSpecs 7 dbForms (List.Perm.refl _)).1

/-- One statement leaves every table a sublist of what it was. -/
theorem execStmt_sublist (tenant : Nat) (db : Store) (s : Stmt) (tbl : String) :
    ((execStmt tenant db s).1 tbl).Sublist (db tbl) := by
  by_cases h : tbl = s.table
  · subst h
    simp only [execStmt, setTable, if_pos rfl]
    exact List.filter_sublist _
  · rw [execStmt_other tenant db s tbl h]

/-- Result of a direct-delete-only phase, table by table: tables in the
list are filtered by the guild_id predicate, others are untouched. -/
theorem runPure_directs (tenant : Nat) (tables : List String) (db : Store) (tbl : String) :
    runPure tenant (tables.map Stmt.direct) db tbl =
      if tbl ∈ tables then (db tbl).filter (fun r => !directMatch tenant r) else db tbl := by
  induction tables generalizing db with
  | nil => simp [runPure]
  | cons t rest ih =>
    simp only [List.map_cons, runPure_cons]
    rw [ih]
    by_cases heq : tbl = t
    · subst heq
      have hstep : (execStmt tenant db (Stmt.direct tbl)).1 tbl =
          (db tbl).filter (fun r => !directMatch tenant r) := by
        simp [execStmt, setTable, stmtMatch_direct, Stmt.table]
      by_cases hmem : tbl ∈ rest
      · simp [hmem, hstep, List.filter_filter]
      · simp [hmem, hstep]
    · rw [execStmt_other tenant db (Stmt.direct t) tbl (by simpa [Stmt.table] using heq)]
      simp [List.mem_cons, heq]

/-- If, against every intermediate shrinkage of the store, each statement
matches no rows of its table, then every recorded rows-affected count of a
fault-free run is zero. -/
theorem pureTrace_counts_zero (tenant : Nat) (stmts : List Stmt) (db : Store)
    (h : ∀ s ∈ stmts, ∀ d : Store, (∀ u, (d u).Sublist (db u)) →
      (d s.table).countP (stmtMatch tenant d s) = 0) :
    ((pureTrace tenant stmts db).all (fun p => p.2 == 0)) = true := by
  induction stmts generalizing db with
  | nil => rfl
  | cons s rest ih =>
    simp only [pureTrace, List.all_cons, Bool.and_eq_true]
    constructor
    · have h0 := h s (by simp) db (fun u => List.Sublist.refl _)
      simp [execStmt, h0]
    · apply ih
      intro u hu d hd
      exact h u (by simp [hu]) d
        (fun v => (hd v).trans (execStmt_sublist tenant db s v))

/-- A trace whose counts are all zero produces no log events. -/
theorem logsOf_eq_nil (tr : List (Stmt × Nat))
    (h : (tr.all (fun p => p.2 == 0)) = true) : logsOf tr = [] := by
  induction tr with
  | nil => rfl
  | cons p rest ih =>
    simp only [List.all_cons, Bool.and_eq_true] at h
    have hp : p.2 = 0 := by simpa using h.1
    simp only [logsOf, List.filterMap_cons, hp]
    simpa [logsOf] using ih h.2

/-- C6: purging the same tenant twice in succession with the later
PurgeGuildData: the first call succeeds and commits; the second call,
run against the committed store with no intervening writes, succeeds and
records a rows-deleted count of 0 for every table (hence also logs
nothing). -/
theorem purgeNew_idempotent (tenant : Nat) (db : Store) :
    (purgeNew noFaults tenant db).result = Except.ok () ∧
    (purgeNew noFaults tenant ((purgeNew noFaults tenant db).store)).result = Except.ok () ∧
    ((purgeNew noFaults tenant ((purgeNew noFaults tenant db).store)).trace.all
      (fun p => p.2 == 0)) = true ∧
    (purgeNew noFaults tenant ((purgeNew noFaults tenant db).store)).logs = [] := by
  rw [purgeNew, purgeWith_ok _ _ _ _ rfl (fun _ _ => rfl) rfl]
  rw [purgeNew, purgeWith_ok _ _ _ _ rfl (fun _ _ => rfl) rfl]
  have hzero : ∀ s ∈ newDirectTables.map Stmt.direct, ∀ d : Store,
      (∀ u, (d u).Sublist (runPure tenant (newDirectTables.map Stmt.direct) db u)) →
      (d s.table).countP (stmtMatch tenant d s) = 0 := by
    intro s hs d hd
    obtain ⟨t, ht, rfl⟩ := List.mem_map.mp hs
    rw [stmtMatch_direct]
    simp only [Stmt.table]
    have hbase : (runPure tenant (newDirectTables.map Stmt.direct) db t).countP
        (directMatch tenant) = 0 := by
      rw [runPure_directs, if_pos ht]
      rw [List.countP_eq_zero]
      intro r hr
      have := List.of_mem_filter hr
      simpa using this
    have hle := List.Sublist.countP_le (directMatch tenant) (hd t)
    omega
  have htr := pureTrace_counts_zero tenant (newDirectTables.map Stmt.direct)
    (runPure tenant (newDirectTables.map Stmt.direct) db) hzero
  exact ⟨rfl, rfl, htr, logsOf_eq_nil _ htr⟩

/-- Survival of a single row: a row that matches no statement of the run,
against any shrinkage of the store, is still present afterwards. -/
theorem runPure_preserves (tenant : Nat) (stmts : List Stmt) (db : Store)
    (tbl : String) (r : Row)
    (hmem : r ∈ db tbl)
    (hsafe : ∀ s ∈ stmts, s.table = tbl → ∀ d : Store,
      (∀ u, (d u).Sublist (db u)) → stmtMatch tenant d s r = false) :
    r ∈ runPure tenant stmts db tbl := by
  induction stmts generalizing db with
  | nil => exact hmem
  | cons s rest ih =>
    rw [runPure_cons]
    apply ih
    · by_cases h : tbl = s.table
      · have hm : stmtMatch tenant db s r = false :=
          hsafe s (by simp) h.symm db (fun u => List.Sublist.refl _)
        subst h
        simp only [execStmt, setTable, if_pos rfl]
        exact List.mem_filter.mpr ⟨hmem, by simp [hm]⟩
      · rw [execStmt_other tenant db s tbl h]
        exact hmem
    · intro u hu hut d hd
      exact hsafe u (by simp [hu]) hut d
        (fun v => (hd v).trans (execStmt_sublist tenant db s v))

/-- C7: cross-tenant isolation of the earlier PurgeGuildData.  A row of
any table that does not carry tenant a in its guild_id column and whose
link column (for every linked spec targeting its table) is outside the
subquery key set of tenant a survives the purge of tenant a: every delete
statement is scoped by the tenant id, so rows belonging to another tenant
are never removed. -/
theorem purgeOld_no_cross_tenant_deletion
    (order : List LinkedSpec) (a : Nat) (db : Store) (tbl : String) (r : Row)
    (hperm : order.Perm oldLinkedSpecs)
    (hmem : r ∈ db tbl)
    (hguild : colVal r "guild_id" ≠ some a)
    (hlinked : ∀ s ∈ oldLinkedSpecs, s.table = tbl →
      ∀ v, colVal r s.column = some v → v ∉ selectedKeys s a db) :
    r ∈ (purgeOld order noFaults a db).store tbl := by
  rw [purgeOld, purgeWith_ok _ _ _ _ rfl (fun _ _ => rfl) rfl]
  apply runPure_preserves a (oldStmts order) db tbl r hmem
  intro s hs hst d hd
  rcases List.mem_append.mp hs with hlin | hdir
  · obtain ⟨sp, hsp, rfl⟩ := List.mem_map.mp hlin
    have hspOld : sp ∈ oldLinkedSpecs := hperm.mem_iff.mp hsp
    rw [stmtMatch_linked]
    rw [linkedMatch]
    cases hcol : colVal r sp.column with
    | none => rfl
    | some v =>
      cases hc : (selectedKeys sp a d).contains v with
      | false => exact hc
      | true =>
        exfalso
        have hvd : v ∈ selectedKeys sp a d := by
          simpa using hc
        have hvdb : v ∈ selectedKeys sp a db := selectedKeys_mono sp a d db hd v hvd
        exact hlinked sp hspOld hst v hcol hvdb
  · obtain ⟨t, _, rfl⟩ := List.mem_map.mp hdir
    rw [stmtMatch_direct, directMatch]
    cases hb : (colVal r "guild_id" == some a) with
    | false => rfl
    | true => exact absurd (by simpa using hb) hguild

/-- Two tenants: guild 1 owns a ticket, a panel and a here-mention row for
that panel; guild 2 owns a ticket and a panel of its own, plus a
here-mention row for its panel. -/
def dbTwoTenants : Store := fun t =>
  if t = "tickets" then [[("guild_id", 1), ("id", 10)], [("guild_id", 2), ("id", 20)]]
  else if t = "panels" then [[("panel_id", 5), ("guild_id", 1)], [("panel_id", 6), ("guild_id", 2)]]
  else if t = "panel_here_mention" then [[("panel_id", 5)], [("panel_id", 6)]]
  else []

theorem purgeOld_no_cross_tenant_deletion_witness :
    [("guild_id", 2), ("id", 20)] ∈
      (purgeOld oldLinkedSpecs noFaults 1 dbTwoTenants).store "tickets" :=
  purgeOld_no_cross_tenant_deletion oldLinkedSpecs 1 dbTwoTenants "tickets"
    [("guild_id", 2), ("id", 20)] (List.Perm.refl _) (by decide) (by decide) (by decide)

/-- A statement-failure message can never collide with the commit-failure
message: the two fmt.Errorf format strings differ in their fixed prefix. -/
theorem deleteMsg_ne_commitMsg (t : String) :
    ("failed to delete from " ++ t) ≠ "failed to commit transaction" := by
  intro h
  have h2 : ("failed to delete from " ++ t).data = ("failed to commit transaction").data := by
    rw [h]
  have h3 : "failed to delete from ".data ++ t.data = "failed to commit transaction".data := by
    simpa [String.data_append] using h2
  have h4 := congrArg (List.take 12) h3
  rw [List.take_append_of_le_length (by decide)] at h4
  exact absurd h4 (by decide)

/-- How a caller can classify a returned purge error: commit failures are
the errors whose outermost message is the commit format string. -/
def isCommitFailure : GoErr → Bool
  | .wrap m _ => m == "failed to commit transaction"
  | .base _ => false

/-- C8: if every statement succeeds but the commit fails, the later
PurgeGuildData returns an error wrapping the commit error under the
commit-failure message, and that error is distinguishable from every
statement-failure error (whose outermost message names the failing table
with a different fixed prefix), so the caller can tell the ambiguous
committed-or-not state from an aborted-and-rolled-back one. -/
theorem purgeNew_commit_failure_distinct
    (f : Faults) (tenant : Nat) (db : Store) (e : GoErr)
    (hbegin : f.beginErr = none)
    (hstmts : ∀ t ∈ newDirectTables, f.stmtErr t = none)
    (hcommit : f.commitErr = some e) :
    (purgeNew f tenant db).result =
      Except.error (GoErr.wrap "failed to commit transaction" e) ∧
    isCommitFailure (GoErr.wrap "failed to commit transaction" e) = true ∧
    ∀ (tbl : String) (cause : GoErr),
      isCommitFailure (GoErr.wrap ("failed to delete from " ++ tbl) cause) = false := by
  refine ⟨?_, by simp [isCommitFailure], ?_⟩
  · have hstmts2 : ∀ u ∈ newDirectTables.map Stmt.direct, f.stmtErr u.table = none := by
      intro u hu
      obtain ⟨t, ht, rfl⟩ := List.mem_map.mp hu
      exact hstmts t ht
    rw [purgeNew, purgeWith_commitFail _ e f tenant db hbegin hstmts2 hcommit]
  · intro tbl cause
    simp only [isCommitFailure]
    exact beq_eq_false_iff_ne.mpr (deleteMsg_ne_commitMsg tbl)

/-- Fault record in which only the commit fails. -/
def failCommit : Faults :=
  { beginErr := none, stmtErr := fun _ => none,
    commitErr := some (.base "connection reset"), rollbackErr := none }

theorem purgeNew_commit_failure_distinct_witness :
    (purgeNew failCommit 42 dbOneTicket).result =
      Except.error (GoErr.wrap "failed to commit transaction" (GoErr.base "connection reset")) ∧
    isCommitFailure
      (GoErr.wrap "failed to commit transaction" (GoErr.base "connection reset")) = true ∧
    ∀ (tbl : String) (cause : GoErr),
      isCommitFailure (GoErr.wrap ("failed to delete from " ++ tbl) cause) = false :=
  purgeNew_commit_failure_distinct failCommit 42 dbOneTicket (GoErr.base "connection reset")
    rfl (fun _ _ => rfl) rfl

/-- Fault record failing the first statement, with a rollback failure
injected on the deferred rollback. -/
def failStmtAndRollback : Faults :=
  { beginErr := none,
    stmtErr := fun t => if t = "archive_messages" then some (.base "stmt boom") else none,
    commitErr := none, rollbackErr := some (.base "rollback boom") }

/-- C9 counterexample: with a statement failure followed by a failing
rollback, the later PurgeGuildData returns exactly the wrapped statement
error; the returned error nowhere contains the rollback error, which is
silently discarded (the Go code ignores the return value of the deferred
tx.Rollback). -/
theorem purgeNew_rollback_error_lost_counterexample :
    (purgeNew failStmtAndRollback 1 dbOneTicket).result =
      Except.error (GoErr.wrap "failed to delete from archive_messages" (GoErr.base "stmt boom")) ∧
    GoErr.mentions
      (GoErr.wrap "failed to delete from archive_messages" (GoErr.base "stmt boom"))
      (GoErr.base "rollback boom") = false := by
  exact ⟨by rfl, by decide⟩

/-- The statement loop never reads anything but the per-statement faults. -/
theorem runStmts_stmtErr_congr (f g : Faults) (tenant : Nat)
    (h : f.stmtErr = g.stmtErr) (stmts : List Stmt) (st : RunState) :
    runStmts f tenant stmts st = runStmts g tenant stmts st := by
  induction stmts generalizing st with
  | nil => rfl
  | cons s rest ih =>
    simp only [runStmts, h]
    cases g.stmtErr s.table with
    | some e => rfl
    | none => exact ih _

/-- The whole outcome of a purge is independent of the injected rollback
error: the Go code never inspects the deferred tx.Rollback result. -/
theorem purgeWith_rollback_irrelevant (stmts : List Stmt) (f : Faults)
    (re : Option GoErr) (tenant : Nat) (db : Store) :
    purgeWith stmts
      { beginErr := f.beginErr, stmtErr := f.stmtErr,
        commitErr := f.commitErr, rollbackErr := re } tenant db =
      purgeWith stmts f tenant db := by
  simp only [purgeWith]
  rw [runStmts_stmtErr_congr
    { beginErr := f.beginErr, stmtErr := f.stmtErr,
      commitErr := f.commitErr, rollbackErr := re } f tenant rfl]

/-- C9 amended: if rollback fails after a statement failure, only the
original statement error is returned; the rollback error is discarded, and
indeed no observable of the call depends on it. -/
theorem purgeNew_rollback_discarded
    (f : Faults) (re : Option GoErr) (tenant : Nat) (db : Store)
    (pre post : List Stmt) (s : Stmt) (e : GoErr)
    (hbegin : f.beginErr = none)
    (hsplit : newDirectTables.map Stmt.direct = pre ++ s :: post)
    (hpre : ∀ u ∈ pre, f.stmtErr u.table = none)
    (hs : f.stmtErr s.table = some e) :
    purgeNew
      { beginErr := f.beginErr, stmtErr := f.stmtErr,
        commitErr := f.commitErr, rollbackErr := re } tenant db =
      purgeNew f tenant db ∧
    (purgeNew
      { beginErr := f.beginErr, stmtErr := f.stmtErr,
        commitErr := f.commitErr, rollbackErr := re } tenant db).result =
      Except.error (GoErr.wrap ("failed to delete from " ++ s.table) e) := by
  constructor
  · exact purgeWith_rollback_irrelevant _ f re tenant db
  · rw [purgeNew, purgeWith_rollback_irrelevant _ f re tenant db]
    rw [purgeWith_fail _ pre post s e f tenant db hsplit hpre hs hbegin]

/-- Fault record failing the first statement with no rollback fault. -/
def failStmtOnly : Faults :=
  { beginErr := none,
    stmtErr := fun t => if t = "archive_messages" then some (.base "stmt boom") else none,
    commitErr := none, rollbackErr := none }

theorem purgeNew_rollback_discarded_witness :
    purgeNew
      { beginErr := failStmtOnly.beginErr, stmtErr := failStmtOnly.stmtErr,
        commitErr := failStmtOnly.commitErr,
        rollbackErr := some (GoErr.base "rollback boom") } 1 dbOneTicket =
      purgeNew failStmtOnly 1 dbOneTicket ∧
    (purgeNew
      { beginErr := failStmtOnly.beginErr, stmtErr := failStmtOnly.stmtErr,
        commitErr := failStmtOnly.commitErr,
        rollbackErr := some (GoErr.base "rollback boom") } 1 dbOneTicket).result =
      Except.error (GoErr.wrap ("failed to delete from " ++ "archive_messages")
        (GoErr.base "stmt boom")) :=
  purgeNew_rollback_discarded failStmtOnly (some (GoErr.base "rollback boom")) 1 dbOneTicket
    [] ((newDirectTables.drop 1).map Stmt.direct) (Stmt.direct "archive_messages")
    (GoErr.base "stmt boom") rfl (by decide) (by decide) (by decide)

/-- The fold distributes over concatenation of statement phases. -/
theorem runPure_append (tenant : Nat) (a b : List Stmt) (db : Store) :
    runPure tenant (a ++ b) db = runPure tenant b (runPure tenant a db) := by
  simp [runPure, List.foldl_append]

/-- A store holding one server_blacklist row for guild 5; server_blacklist
appears in the direct list of the earlier PurgeGuildData but not in that
of the later one. -/
def dbServerBlacklist : Store :=
  fun t => if t = "server_blacklist" then [[("guild_id", 5)]] else []

/-- C10 counterexample: the two implementations of PurgeGuildData are not
observably equivalent.  On a store holding one server_blacklist row for
guild 5, the earlier implementation deletes the row, the later one leaves
it in place (its direct list dropped server_blacklist, along with
guild_leave_time and used_keys, and renamed several tables). -/
theorem purge_versions_not_equivalent_counterexample :
    (purgeOld oldLinkedSpecs noFaults 5 dbServerBlacklist).store "server_blacklist" = [] ∧
      (purgeNew noFaults 5 dbServerBlacklist).store "server_blacklist" =
        [[("guild_id", 5)]] := by
  exact ⟨by decide, by decide⟩

/-- The tables appearing in the direct lists of both versions of
PurgeGuildData. -/
def commonDirectTables : List String :=
  oldDirectTables.filter (fun t => decide (t ∈ newDirectTables))

/-- C10 amended: the two implementations agree only on the shared part of
their descriptors: on every store whose rows all live in tables that both
direct lists contain, the earlier and the later PurgeGuildData delete
exactly the same rows (every table ends up identical).  They diverge on
the tables found in only one of the two lists and on the fourteen linked
tables of the earlier version. -/
theorem purgeOld_purgeNew_agree_on_common
    (order : List LinkedSpec) (tenant : Nat) (db : Store)
    (hperm : order.Perm oldLinkedSpecs)
    (hdb : ∀ t : String, t ∉ commonDirectTables → db t = []) :
    ∀ tbl : String,
      (purgeOld order noFaults tenant db).store tbl =
        (purgeNew noFaults tenant db).store tbl := by
  have hfact : ∀ u ∈ oldLinkedSpecs.map LinkedSpec.table, u ∉ commonDirectTables := by decide
  intro tbl
  rw [purgeOld, purgeNew, purgeWith_ok _ _ _ _ rfl (fun _ _ => rfl) rfl,
    purgeWith_ok _ _ _ _ rfl (fun _ _ => rfl) rfl]
  have hmapeq : (order.map Stmt.linked).map Stmt.table = order.map LinkedSpec.table := by
    simp only [List.map_map]
    rfl
  have hmid : ∀ u, runPure tenant (order.map Stmt.linked) db u = db u := by
    intro u
    by_cases hu : u ∈ order.map LinkedSpec.table
    · have huOld : u ∈ oldLinkedSpecs.map LinkedSpec.table :=
        (hperm.map LinkedSpec.table).mem_iff.mp hu
      have hdbu : db u = [] := hdb u (hfact u huOld)
      have hsub := runPure_sublist tenant (order.map Stmt.linked) db u
      rw [hdbu] at hsub ⊢
      exact List.sublist_nil.mp hsub
    · exact runPure_notMem tenant _ db u (by rw [hmapeq]; exact hu)
  show runPure tenant (oldStmts order) db tbl =
    runPure tenant (newDirectTables.map Stmt.direct) db tbl
  rw [oldStmts, runPure_append, runPure_directs, runPure_directs, hmid]
  by_cases hc : tbl ∈ commonDirectTables
  · have h1 : tbl ∈ oldDirectTables := (List.mem_filter.mp hc).1
    have h2 : tbl ∈ newDirectTables := by
      have := (List.mem_filter.mp hc).2
      simpa using this
    rw [if_pos h1, if_pos h2]
  · have hdbt : db tbl = [] := hdb tbl hc
    rw [hdbt]
    simp

theorem purgeOld_purgeNew_agree_on_common_witness :
    (purgeOld oldLinkedSpecs noFaults 42 dbOneTicket).store "tickets" =
      (purgeNew noFaults 42 dbOneTicket).store "tickets" :=
  purgeOld_purgeNew_agree_on_common oldLinkedSpecs 42 dbOneTicket (List.Perm.refl _)
    (by
      intro t ht
      by_cases h : t = "tickets"
      · subst h
        exact absurd (by decide) ht
      · simp [dbOneTicket, h])
    "tickets"
